import Mathlib

/-
Verification of the supervisory reverse-proxy wrapper (src/server.js).

The file shallowly embeds the parts of the source that the claims are
about:

* the process supervisor (`ensureGatewayRunning`, `startGateway`): the
  module-level mutable cells `gatewayProc` and `gatewayStarting` become
  fields of `SupState`; the synchronous prologue of one call to
  `ensureGatewayRunning` (everything the single-threaded event loop runs
  before the first suspension point) becomes the pure function
  `ensurePrologue`; asynchronous process-exit and spawn-error handlers
  (both set `gatewayProc = null`) become the `procExit` event;
* the readiness prober `waitForGatewayReady`: its polling loop becomes a
  well-founded recursion over the remaining time budget;
* the command runner `runCmd`: its event handlers become a pure function
  of the chunk sequence and the terminating event;
* the token resolution `resolveGatewayToken`;
* the tar-extraction filter and the directory layout logic of the
  `/setup/import` handler.

Machine integers do not occur in the relevant code paths; exit codes are
modelled as `Int`, sizes and times as `Nat`.
-/

/-! ## Process supervisor (src/server.js lines 143-241)

`SupState` packages the module-level mutable state of server.js that the
supervisor reads and writes: `isConfigured()` (a filesystem predicate the
supervisor only samples, here frozen to a field), `gatewayProc`
(`proc`), `gatewayStarting` (`starting`).  For bookkeeping the model also
records the list of pids spawned so far (`spawned`) and a counter
(`nextId`) used both as the next pid and as the identity of the next
shared startup attempt (in the source the attempt identity is the
promise object assigned to `gatewayStarting`). -/

structure SupState where
  configured : Bool
  proc : Option Nat
  starting : Option Nat
  spawned : List Nat
  nextId : Nat
deriving DecidableEq

/-- What the synchronous prologue of one `ensureGatewayRunning()` call
decides: source lines 211-224.  `spawnedNew a` covers the branch that
creates the shared attempt `a`; `startGateway` runs synchronously inside
the new attempt (its body contains no suspension point), so the spawn and
the assignment to `gatewayStarting` both happen before any other caller
can run. -/
inductive EnsureStep where
  | notConfigured
  | okImmediate
  | awaitAttempt (a : Nat)
  | spawnedNew (a : Nat)
deriving DecidableEq

/-- Lines 211-224 of server.js, as executed atomically by the
single-threaded event loop: check `isConfigured()`, then `gatewayProc`,
then `gatewayStarting`; otherwise create the shared attempt, which
synchronously runs `startGateway` (guards pass: `gatewayProc` is null and
the configuration check just succeeded) and records the child process. -/
def ensurePrologue (s : SupState) : SupState × EnsureStep :=
  if s.configured then
    match s.proc with
    | some _ => (s, .okImmediate)
    | none =>
      match s.starting with
      | some a => (s, .awaitAttempt a)
      | none =>
        ({ s with proc := some s.nextId, starting := some s.nextId,
                  spawned := s.spawned ++ [s.nextId], nextId := s.nextId + 1 },
         .spawnedNew s.nextId)
  else (s, .notConfigured)

/-- Events the event loop can deliver while the shared startup attempt
(if any) is still pending: a new call to `ensureGatewayRunning`
(`ensure`), or the asynchronous `exit` / `error` handler of the child
process firing (`procExit`, lines 200-208: both handlers set
`gatewayProc = null`).  Settlement of the shared attempt clears
`gatewayStarting` (the `.finally` on line 221) and closes the
single-flight window; traces over this alphabet therefore model exactly
the window in which calls are concurrent with one attempt. -/
inductive SupEvent where
  | ensure
  | procExit
deriving DecidableEq

def supStep (s : SupState) : SupEvent → SupState × Option EnsureStep
  | .ensure => ((ensurePrologue s).1, some (ensurePrologue s).2)
  | .procExit => ({ s with proc := none }, none)

/-- Run a trace of events, collecting the decision taken by every
`ensure` call. -/
def runTrace : SupState → List SupEvent → SupState × List EnsureStep
  | s, [] => (s, [])
  | s, e :: evs =>
    ((runTrace (supStep s e).1 evs).1,
     (supStep s e).2.toList ++ (runTrace (supStep s e).1 evs).2)

/-- All states visited along a trace (including first and last). -/
def traceStates : SupState → List SupEvent → List SupState
  | s, [] => [s]
  | s, e :: evs => s :: traceStates (supStep s e).1 evs

/-- Decidable check that every `ensure` event of the trace fires while
the backend process is absent (`gatewayProc` is null at that moment). -/
def absentAtCalls : SupState → List SupEvent → Bool
  | _, [] => true
  | s, .ensure :: evs => s.proc.isNone && absentAtCalls (supStep s .ensure).1 evs
  | s, .procExit :: evs => absentAtCalls (supStep s .procExit).1 evs

/-- Fresh configured wrapper state: no process, no attempt. -/
def supInit : SupState := ⟨true, none, none, [], 0⟩

/-- Invariant maintained over a single-flight window started from
`supInit`: the supervisor is configured, and either nothing happened yet
or exactly the one process/attempt `0` exists. -/
def supInv (s : SupState) : Prop :=
  s.configured = true ∧
  ((s.proc = none ∧ s.starting = none ∧ s.spawned = [] ∧ s.nextId = 0) ∨
   ((s.proc = none ∨ s.proc = some 0) ∧ s.starting = some 0 ∧
     s.spawned = [0] ∧ s.nextId = 1))

/-- Full result of one `ensureGatewayRunning()` call, including what the
caller observes after awaiting: `notConfigured` is the early
`{ ok: false }` return, `ok` the `{ ok: true }` resolution, and
`errNotReady` the rejection propagated from the shared attempt when the
readiness wait times out (line 219). -/
inductive EnsureOutcome where
  | notConfigured
  | ok
  | errNotReady
deriving DecidableEq

/-- The value a caller of `ensureGatewayRunning` ultimately receives,
given the eventual outcome `attemptOk a` of each shared attempt `a`:
callers that await an attempt (both its creator and joiners) share that
attempt's outcome; the immediate branches return at once. -/
def ensureCallResult (s : SupState) (attemptOk : Nat → Bool) : EnsureOutcome :=
  match (ensurePrologue s).2 with
  | .notConfigured => .notConfigured
  | .okImmediate => .ok
  | .awaitAttempt a => if attemptOk a then .ok else .errNotReady
  | .spawnedNew a => if attemptOk a then .ok else .errNotReady

/-! ## Readiness prober (src/server.js lines 150-165)

`waitForGatewayReady` loops while `Date.now() - start < timeoutMs`,
issues a `fetch` against the gateway (the `try` swallows connection
failures; any resolved HTTP response, whatever its status, is treated as
ready), and sleeps 250ms between attempts.  The model indexes probe
attempts by `Nat`; `probe n` is the outcome of the n-th fetch and
`dur n` how many milliseconds that fetch itself took before settling. -/

/-- Outcome of one fetch: an HTTP response with some status code (fetch
resolves for every HTTP response, including 4xx/5xx), or a connection
failure (fetch rejects and the catch swallows it). -/
inductive ProbeOutcome where
  | response (status : Nat)
  | connError
deriving DecidableEq

/-- The polling loop of `waitForGatewayReady`: `elapsed` is
`Date.now() - start` at the top of the loop, `n` the index of the next
probe.  A resolved response returns `true` immediately; a connection
failure costs `dur n` for the failed fetch plus the fixed 250ms sleep. -/
def waitLoop (probe : Nat → ProbeOutcome) (dur : Nat → Nat)
    (timeoutMs elapsed n : Nat) : Bool :=
  if _h : elapsed < timeoutMs then
    match probe n with
    | .response _ => true
    | .connError => waitLoop probe dur timeoutMs (elapsed + (dur n + 250)) (n + 1)
  else false
termination_by timeoutMs - elapsed
decreasing_by omega

/-- `waitForGatewayReady(opts)`: run the polling loop from time zero. -/
def waitForGatewayReady (probe : Nat → ProbeOutcome) (dur : Nat → Nat)
    (timeoutMs : Nat) : Bool :=
  waitLoop probe dur timeoutMs 0 0

/-- Milliseconds elapsed at the start of probe `n + k` when probing
started at probe `n` with zero elapsed time and every probe in between
failed: each failed round costs its fetch duration plus the 250ms
sleep. -/
def partialElapsed (dur : Nat → Nat) : Nat → Nat → Nat
  | _, 0 => 0
  | n, k + 1 => dur n + 250 + partialElapsed dur (n + 1) k

/-! ## Command runner (src/server.js lines 578-604)

`runCmd` spawns a child, concatenates every `stdout`/`stderr` data chunk
(in arrival order) into `out`, and resolves — never rejects — on the
first terminating event: `close` with the exit code (`code ?? 0` when the
code is null, e.g. the child was killed by a signal), or `error` (spawn
failure), which appends the error text and resolves with the synthetic
exit code 127. -/

/-- One data chunk, tagged with the stream it arrived on. -/
inductive ProcChunk where
  | out (s : String)
  | err (s : String)
deriving DecidableEq

/-- The terminating event of the child process: `close` with an optional
exit code (null when terminated by a signal), or a spawn `error` with its
message text. -/
inductive ProcEnd where
  | close (code : Option Int)
  | spawnError (msg : String)
deriving DecidableEq

/-- The uniform result shape `{ code, output }` every caller receives. -/
structure RunResult where
  code : Int
  output : String
deriving DecidableEq

/-- The accumulated combined output: chunks of both streams concatenated
in arrival order. -/
def collectOutput (chunks : List ProcChunk) : String :=
  chunks.foldl (fun acc c => acc ++ (match c with | .out s => s | .err s => s)) ""

/-- `runCmd`, as a function of the observed chunk sequence and the first
terminating event.  Total: every execution resolves to a `RunResult`;
nothing is thrown for a non-zero exit code. -/
def runCmd (chunks : List ProcChunk) (term : ProcEnd) : RunResult :=
  match term with
  | .close code => { code := code.getD 0, output := collectOutput chunks }
  | .spawnError msg =>
      { code := 127,
        output := collectOutput chunks ++ "\n[spawn error] " ++ msg ++ "\n" }

/-! ## Gateway token resolution (src/server.js lines 61-84)

`resolveGatewayToken` takes the first of three env overrides whose
trimmed value is non-empty; otherwise it reads the persisted token file
`STATE_DIR/gateway.token` and returns its trimmed content when non-empty
(a failed read is caught and ignored); only otherwise does it generate a
fresh token and persist it with file mode `0o600`.  JavaScript string
trim is embedded executably as `jsTrim`. -/

/-- Whitespace characters removed by JavaScript `String.prototype.trim`
(restricted to the ASCII whitespace that can occur in the token file). -/
def isWsChar (c : Char) : Bool :=
  c = ' ' || c = '\n' || c = '\t' || c = '\r'

/-- Drop whitespace from both ends of a character list. -/
def trimChars (l : List Char) : List Char :=
  ((l.dropWhile isWsChar).reverse.dropWhile isWsChar).reverse

/-- JavaScript `s.trim()`. -/
def jsTrim (s : String) : String := String.mk (trimChars s.data)

/-- JavaScript `x?.trim() || rest`: keep the trimmed value when the
variable is set and its trim is non-empty, otherwise fall through. -/
def trimNonEmpty (x : Option String) : Option String :=
  match x with
  | some s => if jsTrim s = "" then none else some (jsTrim s)
  | none => none

/-- The three-way env fallback chain on lines 62-65 (OPENCLAW, MOLTBOT,
CLAWDBOT prefixes, in precedence order). -/
def envOverride (a b c : Option String) : Option String :=
  (trimNonEmpty a).orElse fun _ =>
    (trimNonEmpty b).orElse fun _ => trimNonEmpty c

/-- Result of token resolution: the token returned, and the write to the
persisted token file if one was attempted (content and file mode; 384 is
0o600).  The source treats the write as best-effort and returns the
generated token even if it fails; the model records the attempt. -/
structure TokenResult where
  token : String
  persisted : Option (String × Nat)
deriving DecidableEq

/-- `resolveGatewayToken()`: `envA/envB/envC` are the three override
variables, `fileContent` the persisted file content (`none` when the
read throws, e.g. the file is absent), `generated` the value
`crypto.randomBytes(32).toString("hex")` would produce. -/
def resolveGatewayToken (envA envB envC : Option String)
    (fileContent : Option String) (generated : String) : TokenResult :=
  match envOverride envA envB envC with
  | some t => { token := t, persisted := none }
  | none =>
    match fileContent with
    | some raw =>
      if jsTrim raw = "" then { token := generated, persisted := some (generated, 384) }
      else { token := jsTrim raw, persisted := none }
    | none => { token := generated, persisted := some (generated, 384) }

/-! ## Tar extraction filter of /setup/import (src/server.js lines 943-956)

`tar.x` extracts into the staging subdirectory `extractDir` and calls the
filter on every entry path before writing it; the filter rejects any
entry path containing the substring `".."`.  Paths are embedded as the
character lists of the entry strings; `resolveComps` models how the
filesystem resolves a relative entry path against the extraction
directory (empty and `"."` components are no-ops, `".."` pops one
component). -/

/-- Does the character list contain two consecutive dots —
`entryPath.includes("..")` of line 950. -/
def hasDotDot : List Char → Bool
  | a :: b :: rest => (a = '.' && b = '.') || hasDotDot (b :: rest)
  | _ => false

/-- `entryPath.includes("..")` on strings. -/
def containsDotDot (s : String) : Bool := hasDotDot s.data

/-- The filter passed to `tar.x` (line 948): keep an entry exactly when
its path does not contain `".."`. -/
def tarEntryFilter (entryPath : String) : Bool := !containsDotDot entryPath

/-- The entries the extraction writes: exactly those the filter kept.
Rejected entries are skipped before any write for them occurs. -/
def extractedEntries (entries : List String) : List String :=
  entries.filter tarEntryFilter

/-- Split a character list into path components at `/`; `cur` holds the
(reversed) characters of the component being read. -/
def splitPathAux : List Char → List Char → List (List Char)
  | cur, [] => [cur.reverse]
  | cur, c :: rest =>
    if c = '/' then cur.reverse :: splitPathAux [] rest
    else splitPathAux (c :: cur) rest

/-- Path components of a character list. -/
def splitPath (l : List Char) : List (List Char) := splitPathAux [] l

/-- Resolve relative path components against a base component list, the
way the filesystem does when `tar.x` writes `cwd`-relative entries:
`".."` pops one component, `"."` and empty components are no-ops. -/
def resolveComps (base : List (List Char)) : List (List Char) → List (List Char)
  | [] => base
  | c :: cs =>
    if c = ['.', '.'] then resolveComps base.dropLast cs
    else if c = [] ∨ c = ['.'] then resolveComps base cs
    else resolveComps (base ++ [c]) cs

/-- The fully resolved filesystem location an extracted entry is written
to, as a component list rooted at the staging directory. -/
def resolvedWritePath (staging entry : String) : List (List Char) :=
  resolveComps (splitPath staging.data) (splitPath entry.data)

/-! ## Import state swap (src/server.js lines 958-1060)

The import handler, after persisting and extracting the upload into a
fresh staging directory under `os.tmpdir()` (which never touches the
live state), proceeds: validate that the extracted top level contains a
recognized state-directory name (`.openclaw`, `.clawdbot` or `.moltbot`,
lines 962-973) and otherwise fail before any live mutation; stop the
gateway; rename the live state directory to `STATE_DIR + ".bak-" + ts`
when it exists (line 998-1001); likewise the workspace directory when it
exists and differs from `path.join(STATE_DIR, "workspace")` (lines
1002-1005); install the extracted state (and workspace, under the same
condition); rewrite the gateway token and bind settings in the imported
config via the command runner; restart the gateway.  Directory contents
are embedded as opaque content blobs; `backups` accumulates the
timestamped backup paths with the content moved there — no step of the
handler ever removes a backup (the only `rmSync` targets are the staging
area and already-copied staging sources). -/

/-- Wrapper path configuration: the live state and workspace directory
paths and the timestamp suffix used for backup paths. -/
structure ImportConfig where
  stateDir : String
  workspaceDir : String
  ts : String
deriving DecidableEq

/-- An uploaded archive after extraction: the list of top-level names
and the content blobs of its state and workspace directories. -/
structure Archive where
  topLevel : List String
  stateContent : String
  workspaceContent : String
deriving DecidableEq

/-- The filesystem and process state the import handler mutates. -/
structure SysState where
  liveState : Option String
  liveWorkspace : Option String
  gatewayProc : Option Nat
  backups : List (String × String)
  tokenSyncs : Nat
deriving DecidableEq

/-- Result of the import handler as seen by the client. -/
inductive ImportResult where
  | invalidBackup
  | success
deriving DecidableEq

/-- Lines 998-1001: move the live state directory aside to the
timestamped backup path when it exists. -/
def backupState (cfg : ImportConfig) (s : SysState) : SysState :=
  match s.liveState with
  | some content =>
    { s with liveState := none,
             backups := s.backups ++ [(cfg.stateDir ++ ".bak-" ++ cfg.ts, content)] }
  | none => s

/-- Lines 1002-1005: move the live workspace directory aside when it
exists and is not exactly `path.join(STATE_DIR, "workspace")`. -/
def backupWorkspace (cfg : ImportConfig) (s : SysState) : SysState :=
  match s.liveWorkspace with
  | some w =>
    if cfg.workspaceDir ≠ cfg.stateDir ++ "/workspace" then
      { s with liveWorkspace := none,
               backups := s.backups ++ [(cfg.workspaceDir ++ ".bak-" ++ cfg.ts, w)] }
    else s
  | none => s

/-- Lines 1011-1049: install the extracted state (and workspace when the
archive has one and the workspace is not nested at the default location
inside the state directory), rewrite the gateway token/bind settings in
the imported config (counted by `tokenSyncs`), and restart the
gateway. -/
def importFinish (cfg : ImportConfig) (arch : Archive) (s : SysState) : SysState :=
  let s1 := { s with liveState := some arch.stateContent }
  let s2 :=
    if "workspace" ∈ arch.topLevel ∧ cfg.workspaceDir ≠ cfg.stateDir ++ "/workspace" then
      { s1 with liveWorkspace := some arch.workspaceContent }
    else s1
  { s2 with tokenSyncs := s2.tokenSyncs + 1, gatewayProc := some 0 }

/-- The import handler from the validation step on (lines 958-1060): on
a recognized top level it stops the gateway, backs up, installs,
rewrites the token and restarts; otherwise it returns the
invalid-backup failure with the system untouched. -/
def importRun (cfg : ImportConfig) (arch : Archive) (s : SysState) :
    ImportResult × SysState :=
  if ".openclaw" ∈ arch.topLevel ∨ ".clawdbot" ∈ arch.topLevel ∨
      ".moltbot" ∈ arch.topLevel then
    (.success,
      importFinish cfg arch
        (backupWorkspace cfg (backupState cfg { s with gatewayProc := none })))
  else (.invalidBackup, s)

/-! ## Helper lemmas and claim theorems -/

theorem supTrace_main (evs : List SupEvent) : ∀ s : SupState, supInv s →
    absentAtCalls s evs = true →
    supInv (runTrace s evs).1 ∧
    (∀ r ∈ (runTrace s evs).2,
        r = EnsureStep.spawnedNew 0 ∨ r = EnsureStep.awaitAttempt 0) ∧
    (s.spawned = [0] → (runTrace s evs).1.spawned = [0]) ∧
    (SupEvent.ensure ∈ evs → (runTrace s evs).1.spawned = [0]) ∧
    (∀ t ∈ traceStates s evs, t.starting = none ∨ t.starting = some 0) := by
  induction evs with
  | nil =>
    intro s hinv _
    refine ⟨hinv, by simp [runTrace], ?_, by simp, ?_⟩
    · intro hsp
      simpa [runTrace] using hsp
    · intro t ht
      simp only [traceStates, List.mem_singleton] at ht
      subst ht
      rcases hinv with ⟨_, h1 | h2⟩
      · exact Or.inl h1.2.1
      · exact Or.inr h2.2.1
  | cons e evs ih =>
    intro s hinv habs
    cases e with
    | procExit =>
      have habs' : absentAtCalls ({ s with proc := none }) evs = true := by
        simpa [absentAtCalls, supStep] using habs
      have hinv' : supInv ({ s with proc := none }) := by
        rcases hinv with ⟨hc, h1 | h2⟩
        · exact ⟨hc, Or.inl ⟨rfl, h1.2.1, h1.2.2.1, h1.2.2.2⟩⟩
        · exact ⟨hc, Or.inr ⟨Or.inl rfl, h2.2.1, h2.2.2.1, h2.2.2.2⟩⟩
      obtain ⟨hA, hB, hC, hD, hE⟩ := ih _ hinv' habs'
      refine ⟨by simpa [runTrace, supStep] using hA,
              by simpa [runTrace, supStep] using hB, ?_, ?_, ?_⟩
      · intro hsp
        simpa [runTrace, supStep] using hC hsp
      · intro hmem
        have : SupEvent.ensure ∈ evs := by
          simpa using hmem
        simpa [runTrace, supStep] using hD this
      · intro t ht
        simp only [traceStates, List.mem_cons] at ht
        rcases ht with rfl | ht
        · rcases hinv with ⟨_, h1 | h2⟩
          · exact Or.inl h1.2.1
          · exact Or.inr h2.2.1
        · exact hE t (by simpa [supStep] using ht)
    | ensure =>
      have hpn : s.proc = none := by
        have := habs
        simp only [absentAtCalls, Bool.and_eq_true, Option.isNone_iff_eq_none] at this
        exact this.1
      have habs' : absentAtCalls (ensurePrologue s).1 evs = true := by
        have := habs
        simp only [absentAtCalls, Bool.and_eq_true] at this
        simpa [supStep] using this.2
      rcases hinv with ⟨hc, h1 | h2⟩
      · -- nothing has happened yet: this call spawns process/attempt 0
        obtain ⟨hp, hst, hsp, hn⟩ := h1
        have hpro : ensurePrologue s =
            ({ s with proc := some 0, starting := some 0,
                      spawned := [0], nextId := 1 }, .spawnedNew 0) := by
          simp [ensurePrologue, hc, hp, hst, hsp, hn]
        have hinv1 : supInv (ensurePrologue s).1 := by
          rw [hpro]
          exact ⟨hc, Or.inr ⟨Or.inr rfl, rfl, rfl, rfl⟩⟩
        obtain ⟨hA, hB, hC, hD, hE⟩ := ih _ hinv1 habs'
        have hsp1 : (ensurePrologue s).1.spawned = [0] := by rw [hpro]
        refine ⟨by simpa [runTrace, supStep] using hA, ?_, ?_, ?_, ?_⟩
        · intro r hr
          simp only [runTrace, supStep, Option.toList_some, List.mem_cons,
            List.singleton_append] at hr
          rcases hr with rfl | hr
          · exact Or.inl (by rw [hpro])
          · exact hB r hr
        · intro _
          simpa [runTrace, supStep] using hC hsp1
        · intro _
          simpa [runTrace, supStep] using hC hsp1
        · intro t ht
          simp only [traceStates, List.mem_cons] at ht
          rcases ht with rfl | ht
          · exact Or.inl hst
          · exact hE t (by simpa [supStep] using ht)
      · -- attempt 0 already in flight: this call joins it
        obtain ⟨_, hst, hsp, hn⟩ := h2
        have hpro : ensurePrologue s = (s, .awaitAttempt 0) := by
          simp [ensurePrologue, hc, hpn, hst]
        have hinv1 : supInv (ensurePrologue s).1 := by
          rw [hpro]
          exact ⟨hc, Or.inr ⟨Or.inl hpn, hst, hsp, hn⟩⟩
        obtain ⟨hA, hB, hC, hD, hE⟩ := ih _ hinv1 habs'
        have hsp1 : (ensurePrologue s).1.spawned = [0] := by rw [hpro]; exact hsp
        refine ⟨by simpa [runTrace, supStep] using hA, ?_, ?_, ?_, ?_⟩
        · intro r hr
          simp only [runTrace, supStep, Option.toList_some, List.mem_cons,
            List.singleton_append] at hr
          rcases hr with rfl | hr
          · exact Or.inr (by rw [hpro])
          · exact hB r hr
        · intro _
          simpa [runTrace, supStep] using hC hsp1
        · intro _
          simpa [runTrace, supStep] using hC hsp1
        · intro t ht
          simp only [traceStates, List.mem_cons] at ht
          rcases ht with rfl | ht
          · exact Or.inr hst
          · exact hE t (by simpa [supStep] using ht)

/-- Claim C1 (confirmed): single-flight startup.  Over any event
sequence inside one single-flight window (the lifetime of one shared
`gatewayStarting` future), starting from the configured absent state,
in which every `ensureGatewayRunning` call fires while the backend
process is absent and at least one such call occurs: exactly one backend
process (pid 0) is spawned; every caller either created attempt 0 or
observes and awaits that same attempt 0; and at every visited state at
most the single attempt 0 exists. -/
theorem ensureRunning_single_flight (evs : List SupEvent)
    (habs : absentAtCalls supInit evs = true)
    (hcall : SupEvent.ensure ∈ evs) :
    (runTrace supInit evs).1.spawned = [0] ∧
    (runTrace supInit evs).1.spawned.length = 1 ∧
    (∀ r ∈ (runTrace supInit evs).2,
        r = EnsureStep.spawnedNew 0 ∨ r = EnsureStep.awaitAttempt 0) ∧
    (∀ t ∈ traceStates supInit evs, t.starting = none ∨ t.starting = some 0) := by
  obtain ⟨_, hB, _, hD, hE⟩ :=
    supTrace_main evs supInit ⟨rfl, Or.inl ⟨rfl, rfl, rfl, rfl⟩⟩ habs
  exact ⟨hD hcall, by rw [hD hcall]; rfl, hB, hE⟩

/-- Witness for C1: three calls, the second after the spawned process
died while the attempt is still pending — still only one spawn. -/
theorem ensureRunning_single_flight_witness :
    (runTrace supInit
      [SupEvent.ensure, SupEvent.procExit, SupEvent.ensure]).1.spawned = [0] :=
  (ensureRunning_single_flight
      [SupEvent.ensure, SupEvent.procExit, SupEvent.ensure]
      (by decide) (by decide)).1

/-- Claim C4 counterexample: the claim says a call made while the
backend is Running returns success immediately, and a call made while a
Starting attempt is in flight returns that attempt's result.  The code
checks `isConfigured()` first and `gatewayProc` before `gatewayStarting`:
with a process handle present but the configuration gone the call
returns the not-configured failure, not success; and with a process
handle present while a failing attempt is in flight the call returns
success immediately instead of the attempt's failure. -/
theorem ensureRunning_contract_cex :
    ensureCallResult ⟨false, some 0, none, [0], 1⟩ (fun _ => false) =
      EnsureOutcome.notConfigured ∧
    ensureCallResult ⟨true, some 0, some 0, [0], 1⟩ (fun _ => false) =
      EnsureOutcome.ok ∧
    ¬ (∀ (s : SupState) (attemptOk : Nat → Bool),
        (s.proc.isSome = true → ensureCallResult s attemptOk = .ok) ∧
        (∀ a, s.starting = some a →
          ensureCallResult s attemptOk =
            (if attemptOk a then EnsureOutcome.ok else EnsureOutcome.errNotReady))) := by
  refine ⟨rfl, rfl, fun h => ?_⟩
  have h1 := (h ⟨false, some 0, none, [0], 1⟩ (fun _ => false)).1 rfl
  exact absurd h1 (by decide)

/-- Claim C4 (corrected): ensureRunning state contract as the code
implements it.  If not configured, the call fails with NotConfigured at
once, even when the process is running.  If configured and the process
handle is present, it returns success immediately, even while a startup
attempt is in flight.  Only when configured with no process handle and a
Starting attempt in flight does the call await that shared attempt and
return its result, failing exactly when the attempt fails. -/
theorem ensureRunning_state_contract (s : SupState) (attemptOk : Nat → Bool) :
    (s.configured = false → ensureCallResult s attemptOk = .notConfigured) ∧
    (s.configured = true → s.proc.isSome = true →
        ensureCallResult s attemptOk = .ok) ∧
    (∀ a, s.configured = true → s.proc = none → s.starting = some a →
        ensureCallResult s attemptOk =
          (if attemptOk a then EnsureOutcome.ok else EnsureOutcome.errNotReady)) := by
  refine ⟨fun h => ?_, fun h1 h2 => ?_, fun a h1 h2 h3 => ?_⟩
  · simp [ensureCallResult, ensurePrologue, h]
  · obtain ⟨p, hp⟩ := Option.isSome_iff_exists.mp h2
    simp [ensureCallResult, ensurePrologue, h1, hp]
  · simp [ensureCallResult, ensurePrologue, h1, h2, h3]

/-- Witness for C4: a joiner of a pending attempt that fails observes
the failure. -/
theorem ensureRunning_state_contract_witness :
    ensureCallResult ⟨true, none, some 5, [5], 6⟩ (fun _ => false) =
      EnsureOutcome.errNotReady := by
  have h := (ensureRunning_state_contract ⟨true, none, some 5, [5], 6⟩
    (fun _ => false)).2.2 5 rfl rfl rfl
  simpa using h

/-- Claim C8 (confirmed): NotConfigured fail-fast.  A call made while
`isConfigured()` is false returns the not-configured failure with the
supervisor state unchanged — in particular nothing is spawned and no
attempt is created — and that is the result every such caller
receives. -/
theorem ensureRunning_notConfigured_fail_fast (s : SupState)
    (h : s.configured = false) :
    ensurePrologue s = (s, EnsureStep.notConfigured) ∧
    (∀ attemptOk, ensureCallResult s attemptOk = .notConfigured) := by
  constructor
  · simp [ensurePrologue, h]
  · intro attemptOk
    simp [ensureCallResult, ensurePrologue, h]

/-- Witness for C8: unconfigured absent state. -/
theorem ensureRunning_notConfigured_fail_fast_witness :
    ensurePrologue ⟨false, none, none, [], 0⟩ =
      (⟨false, none, none, [], 0⟩, EnsureStep.notConfigured) :=
  (ensureRunning_notConfigured_fail_fast ⟨false, none, none, [], 0⟩ rfl).1

/-- Claim C6 (confirmed): the command runner is total with one uniform
result shape.  A spawn failure resolves (never throws) to the synthetic
non-zero exit code 127 with the spawn-error text appended to the
captured output, and a normal close with code `c` resolves to exactly
`{ code := c, output := combined output }` for every `c`, zero or not. -/
theorem runCmd_uniform_result (chunks : List ProcChunk) (msg : String) (c : Int) :
    runCmd chunks (.spawnError msg) =
      { code := 127,
        output := collectOutput chunks ++ "\n[spawn error] " ++ msg ++ "\n" } ∧
    (runCmd chunks (.spawnError msg)).code ≠ 0 ∧
    runCmd chunks (.close (some c)) = { code := c, output := collectOutput chunks } := by
  refine ⟨rfl, by norm_num [runCmd], rfl⟩

/-- Claim C10 (confirmed): a child that closes with a null exit code
(killed by a signal) is reported with exit code 0 — success under the
exit-code-0 convention — because of the `code ?? 0` default. -/
theorem runCmd_null_exit_is_success (chunks : List ProcChunk) :
    runCmd chunks (.close none) = { code := 0, output := collectOutput chunks } := rfl

/-- Claim C7 (confirmed): gateway token stability.  When no operator
override is present (none of the three env variables has a non-empty
trimmed value), a readable persisted token with non-empty trimmed
content is returned as-is with no write; a fresh token is generated and
persisted with file mode 0o600 only when, additionally, the persisted
file is unreadable or its content trims to empty. -/
theorem gatewayToken_stable (envA envB envC fileContent : Option String)
    (gen : String) (hov : envOverride envA envB envC = none) :
    (∀ raw, fileContent = some raw → jsTrim raw ≠ "" →
        resolveGatewayToken envA envB envC fileContent gen =
          { token := jsTrim raw, persisted := none }) ∧
    ((fileContent = none ∨ ∃ raw, fileContent = some raw ∧ jsTrim raw = "") →
        resolveGatewayToken envA envB envC fileContent gen =
          { token := gen, persisted := some (gen, 384) }) := by
  constructor
  · intro raw hraw hne
    subst hraw
    simp [resolveGatewayToken, hov, hne]
  · intro hcase
    rcases hcase with hnone | ⟨raw, hraw, hempty⟩
    · subst hnone
      simp [resolveGatewayToken, hov]
    · subst hraw
      simp [resolveGatewayToken, hov, hempty]

/-- Witness for C7: a whitespace-only override falls through and the
persisted token `"tok123\n"` is reused, trimmed, with no write. -/
theorem gatewayToken_stable_witness :
    resolveGatewayToken (some "   ") none none (some "tok123\n") "G" =
      { token := "tok123", persisted := none } := by
  have h := (gatewayToken_stable (some "   ") none none (some "tok123\n") "G"
    (by decide)).1 "tok123\n" rfl (by decide)
  exact h.trans (by decide)

theorem waitLoop_false_of_noResponse (probe : Nat → ProbeOutcome)
    (dur : Nat → Nat) (t : Nat) :
    ∀ d elapsed n, t - elapsed ≤ d →
      (∀ k, elapsed + partialElapsed dur n k < t → probe (n + k) = .connError) →
      waitLoop probe dur t elapsed n = false := by
  intro d
  induction d with
  | zero =>
    intro elapsed n hd _
    rw [waitLoop, dif_neg (by omega)]
  | succ d ih =>
    intro elapsed n hd hall
    by_cases hlt : elapsed < t
    · have h0 : probe n = .connError := by
        have := hall 0 (by simpa [partialElapsed] using hlt)
        simpa using this
      rw [waitLoop, dif_pos hlt, h0]
      apply ih
      · omega
      · intro k hk
        have harith : elapsed + partialElapsed dur n (k + 1) < t := by
          simp only [partialElapsed] at hk ⊢
          omega
        have := hall (k + 1) harith
        rw [show n + 1 + k = n + (k + 1) by omega]
        exact this
    · rw [waitLoop, dif_neg hlt]

theorem waitLoop_true_of_response (probe : Nat → ProbeOutcome)
    (dur : Nat → Nat) (t : Nat) :
    ∀ k elapsed n, (∀ j, j < k → probe (n + j) = .connError) →
      (∃ st, probe (n + k) = .response st) →
      elapsed + partialElapsed dur n k < t →
      waitLoop probe dur t elapsed n = true := by
  intro k
  induction k with
  | zero =>
    intro elapsed n _ hresp hlt
    obtain ⟨st, hst⟩ := hresp
    have hst' : probe n = .response st := hst
    have hlt' : elapsed < t := by simpa [partialElapsed] using hlt
    rw [waitLoop, dif_pos hlt', hst']
  | succ k ih =>
    intro elapsed n hpre hresp hlt
    have h0 : probe n = .connError := hpre 0 (Nat.succ_pos k)
    have hlt' : elapsed < t := by
      simp only [partialElapsed] at hlt
      omega
    rw [waitLoop, dif_pos hlt', h0]
    apply ih
    · intro j hj
      have := hpre (j + 1) (by omega)
      rw [show n + 1 + j = n + (j + 1) by omega]
      exact this
    · obtain ⟨st, hst⟩ := hresp
      exact ⟨st, by rw [show n + 1 + k = n + (k + 1) by omega]; exact hst⟩
    · simp only [partialElapsed] at hlt
      omega

/-- Claim C9 (confirmed): readiness prober contract.  The loop polls
with the fixed 250ms sleep between attempts and is a total function (it
never raises; connection failures are swallowed by the catch).  If every
probe reached before the timeout elapses fails to connect, it returns
false; if the first `k` probes fail to connect and probe `k` yields any
HTTP response — whatever its status — before the timeout elapses, it
returns true. -/
theorem waitForGatewayReady_contract (probe : Nat → ProbeOutcome)
    (dur : Nat → Nat) (t : Nat) :
    ((∀ k, partialElapsed dur 0 k < t → probe k = .connError) →
        waitForGatewayReady probe dur t = false) ∧
    (∀ k, (∀ j, j < k → probe j = .connError) →
        (∃ st, probe k = .response st) → partialElapsed dur 0 k < t →
        waitForGatewayReady probe dur t = true) := by
  constructor
  · intro hall
    apply waitLoop_false_of_noResponse probe dur t t 0 0 (by omega)
    intro k hk
    have := hall k (by simpa using hk)
    simpa using this
  · intro k hpre hresp hlt
    apply waitLoop_true_of_response probe dur t k 0 0
    · intro j hj
      simpa using hpre j hj
    · simpa using hresp
    · simpa using hlt

/-- Witness for C9: with zero-duration fetches, probes 0 and 1 refused,
probe 2 answering HTTP 503 at 500ms elapsed, a 1000ms budget reports
ready. -/
theorem waitForGatewayReady_contract_witness :
    waitForGatewayReady
      (fun n => if n = 2 then ProbeOutcome.response 503 else ProbeOutcome.connError)
      (fun _ => 0) 1000 = true := by
  apply (waitForGatewayReady_contract
    (fun n => if n = 2 then ProbeOutcome.response 503 else ProbeOutcome.connError)
    (fun _ => 0) 1000).2 2
  · intro j hj
    rcases j with _ | _ | j
    · rfl
    · rfl
    · omega
  · exact ⟨503, rfl⟩
  · decide

theorem hasDotDot_append (xs ys : List Char) (h : hasDotDot ys = true) :
    hasDotDot (xs ++ ys) = true := by
  induction xs with
  | nil => simpa using h
  | cons x xs ih =>
    cases hxy : xs ++ ys with
    | nil =>
      have hy : ys = [] := (List.append_eq_nil.mp hxy).2
      rw [hy] at h
      simp [hasDotDot] at h
    | cons b t =>
      rw [List.cons_append, hxy]
      rw [hxy] at ih
      simp [hasDotDot, ih]

theorem dotdot_mem_splitPathAux (l : List Char) : ∀ cur : List Char,
    ['.', '.'] ∈ splitPathAux cur l → hasDotDot (cur.reverse ++ l) = true := by
  induction l with
  | nil =>
    intro cur h
    simp only [splitPathAux, List.mem_singleton] at h
    rw [List.append_nil, ← h]
    decide
  | cons c rest ih =>
    intro cur h
    simp only [splitPathAux] at h
    by_cases hc : c = '/'
    · rw [if_pos hc] at h
      rcases List.mem_cons.mp h with heq | htail
      · rw [← heq]
        simp [hasDotDot]
      · have hrest : hasDotDot rest = true := by simpa using ih [] htail
        rw [show (c :: rest) = [c] ++ rest from rfl, ← List.append_assoc]
        exact hasDotDot_append _ _ hrest
    · rw [if_neg hc] at h
      have hrec := ih (c :: cur) h
      rw [List.reverse_cons, List.append_assoc] at hrec
      simpa using hrec

theorem resolveComps_keeps_base (cs : List (List Char)) :
    ∀ base : List (List Char), (∀ c ∈ cs, c ≠ ['.', '.']) →
      base <+: resolveComps base cs := by
  induction cs with
  | nil =>
    intro base _
    exact List.prefix_refl base
  | cons c cs ih =>
    intro base hall
    have hc : c ≠ ['.', '.'] := hall c (by simp)
    have hall' : ∀ x ∈ cs, x ≠ ['.', '.'] := fun x hx => hall x (by simp [hx])
    simp only [resolveComps]
    rw [if_neg hc]
    by_cases h2 : c = [] ∨ c = ['.']
    · rw [if_pos h2]
      exact ih base hall'
    · rw [if_neg h2]
      exact (List.prefix_append base [c]).trans (ih (base ++ [c]) hall')

/-- Claim C2 (confirmed): path-traversal safety of import.  Every entry
whose path contains a parent-directory reference is rejected by the
extraction filter, so no file is ever written for it; every entry the
extraction does write resolves to a filesystem location below the
staging directory; and in particular an entry `"../../etc/passwd"` is
never extracted. -/
theorem import_extract_traversal_safe (staging : String) (entries : List String) :
    (∀ e, containsDotDot e = true → e ∉ extractedEntries entries) ∧
    (∀ e ∈ extractedEntries entries,
        splitPath staging.data <+: resolvedWritePath staging e) ∧
    "../../etc/passwd" ∉ extractedEntries entries := by
  refine ⟨?_, ?_, ?_⟩
  · intro e he hmem
    simp only [extractedEntries, List.mem_filter] at hmem
    have := hmem.2
    simp [tarEntryFilter, he] at this
  · intro e hmem
    simp only [extractedEntries, List.mem_filter] at hmem
    have hf : containsDotDot e = false := by
      simpa [tarEntryFilter, Bool.not_eq_true'] using hmem.2
    unfold resolvedWritePath
    apply resolveComps_keeps_base
    intro c hc hceq
    subst hceq
    have hdd := dotdot_mem_splitPathAux e.data []
      (by simpa [splitPath] using hc)
    simp only [List.reverse_nil, List.nil_append] at hdd
    rw [containsDotDot] at hf
    rw [hdd] at hf
    cases hf
  · intro hmem
    simp only [extractedEntries, List.mem_filter] at hmem
    have := hmem.2
    exact absurd this (by decide)

/-- Witness for C2: the traversal entry of the spec scenario is rejected
from a concrete upload. -/
theorem import_extract_traversal_safe_witness :
    "../../etc/passwd" ∉ extractedEntries [".openclaw/openclaw.json", "../../etc/passwd"] :=
  (import_extract_traversal_safe "/tmp/openclaw-import-stage"
      [".openclaw/openclaw.json", "../../etc/passwd"]).1
    "../../etc/passwd" (by decide)

theorem importFinish_backups (cfg : ImportConfig) (arch : Archive) (s : SysState) :
    (importFinish cfg arch s).backups = s.backups := by
  unfold importFinish
  split <;> rfl

theorem backupWorkspace_backups_mono (cfg : ImportConfig) (s : SysState) :
    ∀ b ∈ s.backups, b ∈ (backupWorkspace cfg s).backups := by
  intro b hb
  unfold backupWorkspace
  cases s.liveWorkspace with
  | none => exact hb
  | some w =>
    dsimp only
    by_cases hcond : cfg.workspaceDir = cfg.stateDir ++ "/workspace"
    · rw [if_neg (not_not_intro hcond)]
      exact hb
    · rw [if_pos hcond]
      exact List.mem_append_left _ hb

theorem ne_join_of_not_nested (stateDir wsDir : String)
    (h : ¬ (stateDir ++ "/").data <+: wsDir.data) :
    wsDir ≠ stateDir ++ "/workspace" := by
  intro he
  apply h
  subst he
  refine ⟨"workspace".data, ?_⟩
  rw [String.data_append, String.data_append, List.append_assoc]
  have hdw : "/".data ++ "workspace".data = "/workspace".data := by decide
  rw [hdw]

/-- Claim C3 (confirmed): import validation atomicity.  When the
extracted top level contains none of the recognized state-directory
names, the import handler returns the invalid-backup failure and the
system state — live state directory, live workspace, running gateway
process, backups — is returned byte-for-byte unchanged: no live
filesystem mutation and no backend stop happens before validation
passes. -/
theorem import_invalid_archive_untouched (cfg : ImportConfig) (arch : Archive)
    (s : SysState)
    (h1 : ".openclaw" ∉ arch.topLevel) (h2 : ".clawdbot" ∉ arch.topLevel)
    (h3 : ".moltbot" ∉ arch.topLevel) :
    importRun cfg arch s = (ImportResult.invalidBackup, s) := by
  simp [importRun, h1, h2, h3]

/-- Witness for C3: an archive with only a workspace directory and a
stray file is rejected and the running system is untouched. -/
theorem import_invalid_archive_untouched_witness :
    importRun ⟨"/data/.openclaw", "/data/workspace", "T0"⟩
        ⟨["workspace", "README.md"], "sc", "wc"⟩
        ⟨some "live-config", some "live-ws", some 7, [], 0⟩ =
      (ImportResult.invalidBackup,
        ⟨some "live-config", some "live-ws", some 7, [], 0⟩) :=
  import_invalid_archive_untouched _ _ _ (by decide) (by decide) (by decide)

/-- Claim C5 (confirmed): backup retention on import.  For every import
that passes validation with an existing live state directory, the live
state content is moved to the timestamped backup path (never deleted:
it is present in the final backup set), every pre-existing backup is
still present afterwards (the handler never auto-deletes backups), and
when a live workspace directory exists that is not nested inside the
state directory it is likewise moved to its own timestamped backup
path. -/
theorem import_backup_retained (cfg : ImportConfig) (arch : Archive)
    (s : SysState) (content : String)
    (hmark : ".openclaw" ∈ arch.topLevel ∨ ".clawdbot" ∈ arch.topLevel ∨
      ".moltbot" ∈ arch.topLevel)
    (hlive : s.liveState = some content) :
    ((cfg.stateDir ++ ".bak-" ++ cfg.ts, content) ∈
        (importRun cfg arch s).2.backups) ∧
    (∀ b ∈ s.backups, b ∈ (importRun cfg arch s).2.backups) ∧
    (∀ w, s.liveWorkspace = some w →
        ¬ (cfg.stateDir ++ "/").data <+: cfg.workspaceDir.data →
        (cfg.workspaceDir ++ ".bak-" ++ cfg.ts, w) ∈
          (importRun cfg arch s).2.backups) := by
  have hrun : (importRun cfg arch s).2 =
      importFinish cfg arch
        (backupWorkspace cfg (backupState cfg { s with gatewayProc := none })) := by
    simp [importRun, if_pos hmark]
  have hbs : backupState cfg { s with gatewayProc := none } =
      { s with gatewayProc := none, liveState := none,
               backups := s.backups ++ [(cfg.stateDir ++ ".bak-" ++ cfg.ts, content)] } := by
    simp [backupState, hlive]
  refine ⟨?_, ?_, ?_⟩
  · rw [hrun, importFinish_backups]
    apply backupWorkspace_backups_mono
    rw [hbs]
    simp
  · intro b hb
    rw [hrun, importFinish_backups]
    apply backupWorkspace_backups_mono
    rw [hbs]
    simp [hb]
  · intro w hw hnn
    have hne := ne_join_of_not_nested cfg.stateDir cfg.workspaceDir hnn
    rw [hrun, importFinish_backups, hbs]
    simp [backupWorkspace, hw, hne]

/-- Witness for C5: a concrete import of a recognized archive over a
live deployment retains the old state content at the timestamped backup
path. -/
theorem import_backup_retained_witness :
    ("/data/.openclaw" ++ ".bak-" ++ "T1", "old-config") ∈
      (importRun ⟨"/data/.openclaw", "/ws", "T1"⟩ ⟨[".openclaw"], "new", "nw"⟩
        ⟨some "old-config", some "old-ws", some 3, [("earlier", "blob")], 0⟩).2.backups :=
  (import_backup_retained ⟨"/data/.openclaw", "/ws", "T1"⟩ ⟨[".openclaw"], "new", "nw"⟩
      ⟨some "old-config", some "old-ws", some 3, [("earlier", "blob")], 0⟩
      "old-config" (Or.inl (by decide)) rfl).1
